import Mathlib

/-!
Verification of the text-extraction and data-shuttling logic of the
web_scraping_agent repository.

Python strings are modelled as `List Char` (sequences of code points).
The regular expressions used by the simple scraper
(`projetc_II_agent_scraper/simple_scraper/csv_15.py`) are embedded by a
small backtracking engine: a matcher maps a start index to the list of
candidate end indices in backtracking-preference order (greedy
quantifiers yield longer ends first, alternatives are tried in written
order, an optional group tries the group before the empty match), so the
head of the candidate list at the leftmost succeeding index is exactly
the match Python's `re` module reports first.
-/

/-- The characters matched by the regex class backslash-s (ASCII part),
which is also the set stripped by Python's `str.strip()`. -/
def isSpaceB (c : Char) : Bool :=
  c = ' ' || c = '\t' || c = '\n' || c = '\r' || c = '\x0b' || c = '\x0c'

/-- ASCII decimal digit, the regex class backslash-d. -/
def isDigitB (c : Char) : Bool :=
  '0' ≤ c && c ≤ '9'

/-- Lower-casing covering ASCII plus the accented capitals that occur in
the scraper's keywords and patterns (models Python `str.lower()` /
`re.IGNORECASE` on the alphabet actually used). -/
def myLower (c : Char) : Char :=
  if c = 'Á' then 'á' else if c = 'Â' then 'â' else if c = 'Ã' then 'ã'
  else if c = 'À' then 'à' else if c = 'Ç' then 'ç' else if c = 'É' then 'é'
  else if c = 'Ê' then 'ê' else if c = 'Í' then 'í' else if c = 'Ó' then 'ó'
  else if c = 'Ô' then 'ô' else if c = 'Õ' then 'õ' else if c = 'Ú' then 'ú'
  else c.toLower

/-- Case-insensitive character equality. -/
def ciEq (a b : Char) : Bool := myLower a == myLower b

/-- Python `str.strip()`. -/
def pyStrip (l : List Char) : List Char :=
  ((l.dropWhile isSpaceB).reverse.dropWhile isSpaceB).reverse

/-- Python `str.split(c)` for a single-character separator. -/
def splitOnChar (c : Char) : List Char → List (List Char)
  | [] => [[]]
  | x :: xs =>
    let r := splitOnChar c xs
    if x = c then [] :: r
    else
      match r with
      | p :: ps => (x :: p) :: ps
      | [] => [[x]]

/-- Python `int()` on a nonempty string of ASCII digits. -/
def parseNatDigits (l : List Char) : Nat :=
  l.foldl (fun n c => n * 10 + (c.toNat - '0'.toNat)) 0

/-- Case-insensitive "the first list is a prefix of the second". -/
def ciStartsWith : List Char → List Char → Bool
  | [], _ => true
  | _ :: _, [] => false
  | a :: as, b :: bs => ciEq a b && ciStartsWith as bs

/-- Substring containment, Python's `needle in hay`. -/
def isSubstring : List Char → List Char → Bool
  | n, [] => n.isEmpty
  | n, c :: t => n.isPrefixOf (c :: t) || isSubstring n t

/-! ## The backtracking engine

A matcher has type `List Char → Nat → List Nat`: given the subject and a
start index it returns candidate end indices in preference order. -/

/-- Length of the run of characters satisfying `p` starting at `i`. -/
def runLen (p : Char → Bool) (s : List Char) (i : Nat) : Nat :=
  ((s.drop i).takeWhile p).length

/-- A single character of class `p` (regex `[...]` of width one). -/
def litCands (p : Char → Bool) (s : List Char) (i : Nat) : List Nat :=
  match s[i]? with
  | some c => if p c then [i + 1] else []
  | none => []

/-- Greedy `p*`: all ends from the longest run down to the empty match. -/
def starCands (p : Char → Bool) (s : List Char) (i : Nat) : List Nat :=
  let n := runLen p s i
  (List.range (n + 1)).map (fun k => i + n - k)

/-- Greedy `p+`: all ends from the longest run down to one character. -/
def plusCands (p : Char → Bool) (s : List Char) (i : Nat) : List Nat :=
  let n := runLen p s i
  (List.range n).map (fun k => i + n - k)

/-- Sequencing of two matchers, preserving backtracking order. -/
def seqCands (f g : List Char → Nat → List Nat) (s : List Char) (i : Nat) : List Nat :=
  (f s i).flatMap (g s)

/-- Greedy optional group `(?:...)?`: the group first, then the empty match. -/
def optCands (f : List Char → Nat → List Nat) (s : List Char) (i : Nat) : List Nat :=
  f s i ++ [i]

/-- A literal word, compared case-insensitively (all the scraper's
patterns are compiled with `re.IGNORECASE`). -/
def wordCands (w : List Char) (s : List Char) (i : Nat) : List Nat :=
  if ciStartsWith w (s.drop i) then [i + w.length] else []

/-- Alternation, alternatives tried in written order. -/
def altCands (fs : List (List Char → Nat → List Nat)) (s : List Char) (i : Nat) : List Nat :=
  fs.flatMap (fun f => f s i)

/-- The leftmost match: the smallest start index at which the matcher
succeeds, paired with its preferred end. This is the first match
reported by `re.findall` / the match `matches[0]` in the source. -/
def firstMatchEnd (m : List Char → Nat → List Nat) (s : List Char) : Option (Nat × Nat) :=
  (List.range (s.length + 1)).findSome? (fun i => ((m s i).head?).map (fun e => (i, e)))

/-- The leading capture group of a pattern split as `group` then `rest`:
at the leftmost start where the whole pattern matches, the group's
extent under backtracking is its first candidate end that lets `rest`
succeed. Returns the text captured by the group. -/
def firstGroup (g rest : List Char → Nat → List Nat) (s : List Char) : Option (List Char) :=
  (List.range (s.length + 1)).findSome? (fun i =>
    (((g s i).filter (fun m => !((rest s m).isEmpty))).head?).map
      (fun m => (s.drop i).take (m - i)))

/-! ## The concrete patterns of `csv_15.py` -/

/-- `price_pattern`: R, dollar, optional whitespace, one-plus of digit,
dot or comma, optionally whitespace and the word mil. -/
def priceCands : List Char → Nat → List Nat :=
  seqCands (wordCands ("R$".data))
    (seqCands (starCands isSpaceB)
      (seqCands (plusCands (fun c => isDigitB c || c = '.' || c = ','))
        (optCands (seqCands (starCands isSpaceB) (wordCands ("mil".data))))))

/-- First price match of a section, as (start, end). -/
def priceFirst (s : List Char) : Option (Nat × Nat) := firstMatchEnd priceCands s

/-- Whether `re.findall(price_pattern, section)` is nonempty. -/
def hasPrice (s : List Char) : Bool := (priceFirst s).isSome

/-- The text of the first price match (`prices[0]`). -/
def priceText (s : List Char) : Option (List Char) :=
  (priceFirst s).map (fun p => (s.drop p.1).take (p.2 - p.1))

/-- `room_pattern` group 1: the digits captured before the word
quarto, dormitório or bedroom. -/
def roomGroup (s : List Char) : Option (List Char) :=
  firstGroup (plusCands isDigitB)
    (seqCands (starCands isSpaceB)
      (altCands [wordCands ("quarto".data), wordCands ("dormitório".data),
                 wordCands ("bedroom".data)])) s

/-- `bath_pattern` group 1: the digits captured before the word
banheiro, bathroom or wc. -/
def bathGroup (s : List Char) : Option (List Char) :=
  firstGroup (plusCands isDigitB)
    (seqCands (starCands isSpaceB)
      (altCands [wordCands ("banheiro".data), wordCands ("bathroom".data),
                 wordCands ("wc".data)])) s

/-- `area_pattern` group 1: digits with an optional decimal part,
captured before optional whitespace and an m-squared marker. -/
def areaGroup (s : List Char) : Option (List Char) :=
  firstGroup
    (seqCands (plusCands isDigitB)
      (optCands (seqCands (litCands (fun c => c = '.' || c = ','))
        (plusCands isDigitB))))
    (seqCands (starCands isSpaceB)
      (seqCands (litCands (fun c => ciEq c 'm'))
        (litCands (fun c => c = '²' || c = '2')))) s

/-- `address_pattern`: a street keyword, whitespace, a run of non-comma
characters, then four optional comma/hyphen-introduced tails. -/
def addrCands : List Char → Nat → List Nat :=
  seqCands (altCands [wordCands ("Rua".data), wordCands ("Av".data),
      wordCands ("Avenida".data), wordCands ("Alameda".data),
      wordCands ("Travessa".data), wordCands ("Praça".data)])
    (seqCands (plusCands isSpaceB)
      (seqCands (plusCands (fun c => !(c = ',')))
        (seqCands (optCands (seqCands (litCands (fun c => c = ','))
            (seqCands (starCands isSpaceB) (plusCands isDigitB))))
          (seqCands (optCands (seqCands (litCands (fun c => c = ','))
              (seqCands (starCands isSpaceB) (plusCands (fun c => !(c = '-'))))))
            (seqCands (optCands (seqCands (litCands (fun c => c = '-'))
                (seqCands (starCands isSpaceB) (plusCands (fun c => !(c = ','))))))
              (optCands (seqCands (litCands (fun c => c = ','))
                (seqCands (starCands isSpaceB) (plusCands (fun c => !(c = '-')))))))))))

/-- First match of the address pattern (`matches[0]` in the source). -/
def addrFirstMatch (s : List Char) : Option (Nat × Nat) := firstMatchEnd addrCands s

/-- The section separator: newline, greedy whitespace, newline. -/
def blankCands : List Char → Nat → List Nat :=
  seqCands (litCands (fun c => c = '\n'))
    (seqCands (starCands isSpaceB) (litCands (fun c => c = '\n')))

/-- `re.split` on the separator pattern, by repeated leftmost match;
fuel bounds the recursion (every match consumes at least two
characters, so `s.length` fuel always suffices). -/
def splitBlankGo : Nat → List Char → List (List Char)
  | 0, s => [s]
  | fuel + 1, s =>
    match firstMatchEnd blankCands s with
    | none => [s]
    | some (i, e) => s.take i :: splitBlankGo fuel (s.drop e)

/-- The section split used by `extract_properties_simple`. -/
def splitSections (s : List Char) : List (List Char) := splitBlankGo s.length s

/-! ## The scraper's extraction functions -/

/-- The keywords `extract_title_from_section` looks for in a lowered line. -/
def titleKeywords : List (List Char) :=
  [("apartamento".data), ("casa".data), ("imóvel".data), ("venda".data), ("aluguel".data)]

/-- `extract_title_from_section`: first a stripped line of length in
(10, 100) containing a keyword; otherwise the first stripped line of
length above 5, truncated to 80 characters; otherwise a fixed default. -/
def extract_title_from_section (sec : List Char) : List Char :=
  let lines := splitOnChar '\n' sec
  match lines.findSome? (fun line =>
      let l := pyStrip line
      if 10 < l.length ∧ l.length < 100 ∧
         titleKeywords.any (fun w => isSubstring w (l.map myLower)) = true
      then some l else none) with
  | some t => t
  | none =>
    match lines.findSome? (fun line =>
        let l := pyStrip line
        if 5 < l.length then some (l.take 80) else none) with
    | some t => t
    | none => "Título não identificado".data

/-- The dictionary built by `extract_address_from_section`. -/
structure AddressInfo where
  endereco : List Char
  bairro : Option (List Char)
  cidade : Option (List Char)
deriving DecidableEq, Repr

/-- `extract_address_from_section`: None when the address pattern has no
match; otherwise the first match is stripped, split on commas (each part
stripped), the last part taken as bairro and the rest rejoined as
endereco, and a bairro containing a hyphen is further split, its first
hyphen part (stripped) kept as bairro and its last (stripped) as cidade. -/
def extract_address_from_section (sec : List Char) : Option AddressInfo :=
  match addrFirstMatch sec with
  | none => none
  | some (i, e) =>
    let full := pyStrip ((sec.drop i).take (e - i))
    let parts := (splitOnChar ',' full).map pyStrip
    if 1 < parts.length then
      let bairro0 := parts.getLastD []
      let end1 := List.intercalate [','] parts.dropLast
      if bairro0.contains '-' then
        let cityParts := splitOnChar '-' bairro0
        if 1 < cityParts.length then
          some ⟨end1, some (pyStrip (cityParts.headD [])),
                some (pyStrip (cityParts.getLastD []))⟩
        else some ⟨end1, some bairro0, none⟩
      else some ⟨end1, some bairro0, none⟩
    else some ⟨full, none, none⟩

/-- One property dictionary as built by `extract_properties_simple`.
`area_m2` keeps the matched decimal numeral with the comma replaced by a
dot; the Python `float(...)` conversion of that numeral is represented
by the numeral itself. -/
structure PropertyRecord where
  titulo : List Char
  preco : Option (List Char)
  endereco : Option (List Char)
  bairro : Option (List Char)
  cidade : Option (List Char)
  area_m2 : Option (List Char)
  quartos : Option Nat
  banheiros : Option Nat
  vagas : Option Nat
  tipo : Option (List Char)
  condominio : Option (List Char)
  caracteristicas : List (List Char)
  link : List Char
deriving DecidableEq, Repr

/-- The record `extract_properties_simple` builds from one section. -/
def recordFromSection (url sec : List Char) : PropertyRecord where
  titulo := extract_title_from_section sec
  preco := priceText sec
  endereco := (extract_address_from_section sec).map (fun a => a.endereco)
  bairro := (extract_address_from_section sec).bind (fun a => a.bairro)
  cidade := (extract_address_from_section sec).bind (fun a => a.cidade)
  area_m2 := (areaGroup sec).map (List.map (fun c => if c = ',' then '.' else c))
  quartos := (roomGroup sec).map parseNatDigits
  banheiros := (bathGroup sec).map parseNatDigits
  vagas := none
  tipo := none
  condominio := none
  caracteristicas := []
  link := url

/-- A section yields a record exactly when it is not skipped: it has at
least 50 characters and the price pattern matches somewhere in it. -/
def qualifies (s : List Char) : Bool :=
  decide (50 ≤ s.length) && hasPrice s

/-- The section loop of `extract_properties_simple`: skip short or
price-less sections, append a record for the others, and stop as soon
as 20 records have been collected. -/
def extractLoop (url : List Char) : List (List Char) → List PropertyRecord → List PropertyRecord
  | [], acc => acc
  | s :: rest, acc =>
    if qualifies s = true then
      let acc2 := acc ++ [recordFromSection url s]
      if 20 ≤ acc2.length then acc2 else extractLoop url rest acc2
    else extractLoop url rest acc

/-- `extract_properties_simple`: split the content into sections at
blank lines and run the section loop. -/
def extract_properties_simple (content url : List Char) : List PropertyRecord :=
  extractLoop url (splitSections content) []

/-! ## `extract_clean_content` and `process_url`

The HTTP call is the one effect of `extract_clean_content`; its outcome
is an explicit input: either the request raised
(`requests.exceptions.RequestException` or any other exception), or it
returned a status code and a body text. -/

/-- Outcome of `self.session.get(jina_url, timeout=30)`. -/
inductive HttpOutcome where
  | err : HttpOutcome
  | ok : Nat → List Char → HttpOutcome
deriving DecidableEq, Repr

/-- `extract_clean_content`: None on a raised request error, None when
`raise_for_status` fires (status 400-599), None when the body has at
most 100 characters, and otherwise the body itself. -/
def extract_clean_content : HttpOutcome → Option (List Char)
  | .err => none
  | .ok status text =>
    if 400 ≤ status ∧ status < 600 then none
    else if 100 < text.length then some text else none

/-- A property record with the three metadata keys `process_url` adds. -/
structure TaggedRecord where
  base : PropertyRecord
  site_origem : List Char
  data_coleta : List Char
  url_origem : List Char
deriving DecidableEq, Repr

/-- Attaching the metadata of `process_url` step 3 to one record. -/
def tagRecord (site ts url : List Char) (p : PropertyRecord) : TaggedRecord :=
  ⟨p, site, ts, url⟩

/-- `process_url`. `llmRes` is the list returned by
`extract_property_data_with_llm` (an external Ollama call), `site`
models `urlparse(url).netloc` and `ts` models the `datetime.now()`
timestamp string. A falsy (None or empty) extracted content short
circuits to the empty list. -/
def process_url (o : HttpOutcome) (llmRes : List PropertyRecord) (use_llm : Bool)
    (url site ts : List Char) : List TaggedRecord :=
  match extract_clean_content o with
  | none => []
  | some content =>
    if content.isEmpty then []
    else
      let properties :=
        if use_llm then
          if llmRes.isEmpty then extract_properties_simple content url else llmRes
        else extract_properties_simple content url
      properties.map (tagRecord site ts url)

/-! ## The scraper object's state -/

/-- The fields set by `JinaAIRealEstateScraper.__init__`. Times are
rationals (Python floats from `time.time()`). -/
structure ScraperState where
  base_url : List Char
  api_key : Option (List Char)
  headers : List (List Char × List Char)
  requests_per_minute : Nat
  min_delay : ℚ
  last_request_time : ℚ
deriving DecidableEq, Repr

/-- `__init__`: header dictionary, rate limit of 200 or 20 requests per
minute depending on the API key, and a zero last-request time. -/
def initState (apiKey : Option (List Char)) : ScraperState :=
  let rpm : Nat := if apiKey.isSome then 200 else 20
  { base_url := "https://r.jina.ai/".data
    api_key := apiKey
    headers :=
      [(("User-Agent".data), ("Mozilla/5.0 (Windows NT 10.0; Win64; x64) AppleWebKit/537.36 (KHTML, like Gecko) Chrome/120.0.0.0 Safari/537.36".data)),
       (("Accept".data), ("text/plain, application/json".data)),
       (("Accept-Language".data), ("pt-BR,pt;q=0.9,en;q=0.8".data))] ++
      (match apiKey with
       | some k => [(("Authorization".data), ("Bearer ".data ++ k))]
       | none => [])
    requests_per_minute := rpm
    min_delay := 60 / (rpm : ℚ)
    last_request_time := 0 }

/-- `respect_rate_limit`: reads the clock (`now`), possibly sleeps, and
stores a fresh clock reading (`now2`) in `last_request_time`; the sleep
itself is unobservable in the state. -/
def respect_rate_limit (st : ScraperState) (_now now2 : ℚ) : ScraperState :=
  { st with last_request_time := now2 }

/-- `extract_clean_content` as a method: it first runs
`respect_rate_limit` (so the state update happens whatever the HTTP
outcome) and returns the extracted content. -/
def extract_clean_content_st (st : ScraperState) (now now2 : ℚ) (o : HttpOutcome) :
    ScraperState × Option (List Char) :=
  (respect_rate_limit st now now2, extract_clean_content o)

/-! ## `script_principal.py` -/

/-- One `subprocess.run([python, name], check=True)`: the invocation is
appended to the trace; a nonzero exit code raises
`CalledProcessError`, carried as the error value. -/
def runChecked (code : Nat) (trace : List (List Char)) (name : List Char) :
    Except (List (List Char)) (List (List Char)) :=
  if code = 0 then .ok (trace ++ [name]) else .error (trace ++ [name])

/-- The orchestrator's try block: three checked invocations in sequence;
the except clause just ends the script, so the value of
`script_principal` is the trace of scripts actually invoked. `exits k`
is the exit code of the k-th invocation. -/
def script_principal (exits : Nat → Nat) : List (List Char) :=
  match (do
    let t1 ← runChecked (exits 0) [] ("inserir_dados_mysql.py".data)
    let t2 ← runChecked (exits 1) t1 ("eliminar_duplicatas.py".data)
    runChecked (exits 2) t2 ("inserir_dados_mysql.py".data) :
      Except (List (List Char)) (List (List Char))) with
  | .ok t => t
  | .error t => t

/-! ## `inserir_dados_mysql.py` -/

/-- A pandas dataframe as read from / written to a SQL table. -/
structure DataFrame where
  columns : List (List Char)
  rows : List (List (List Char))
deriving DecidableEq, Repr

/-- A database: named tables. -/
abbrev Database : Type := List (List Char × DataFrame)

/-- `pd.read_sql(table, con)`: look the table up. -/
def dbLookup (db : Database) (t : List Char) : Option DataFrame :=
  (db.find? (fun p => p.1 == t)).map (fun p => p.2)

/-- `df.to_sql(table, con, if_exists='replace', index=False)`: drop any
existing table of that name and store the dataframe. -/
def to_sql_replace (db : Database) (t : List Char) (df : DataFrame) : Database :=
  db.filter (fun p => !(p.1 == t)) ++ [(t, df)]

/-- `inserir_dados_mysql.py`: read the `apartamentos` table from the
SQLite database (None if absent: `read_sql` raises) and write it to the
MySQL database with `if_exists='replace'`; returns the final pair of
databases. -/
def inserir_dados_mysql (sqlite mysql : Database) : Option (Database × Database) :=
  (dbLookup sqlite ("apartamentos".data)).map
    (fun df => (sqlite, to_sql_replace mysql ("apartamentos".data) df))

/-! ## `eliminar_duplicatas.py` -/

/-- One row of the `apartamentos` table: the six columns used as the
deduplication subset (Área, Preço, Quartos, Banheiros, Vagas de
Garagem, Endereço) plus whatever other column values the row has. -/
structure ApRow where
  area : List Char
  preco : List Char
  quartos : List Char
  banheiros : List Char
  vagas : List Char
  endereco : List Char
  outros : List (List Char)
deriving DecidableEq, Repr

/-- The deduplication key: the six subset columns. -/
def keyOf (r : ApRow) : List (List Char) :=
  [r.area, r.preco, r.quartos, r.banheiros, r.vagas, r.endereco]

/-- `df.drop_duplicates(subset=..., keep='first')`: keep a row exactly
when no earlier row has the same key. -/
def dropDupAux (seen : List (List (List Char))) : List ApRow → List ApRow
  | [] => []
  | r :: rs =>
    if keyOf r ∈ seen then dropDupAux seen rs
    else r :: dropDupAux (keyOf r :: seen) rs

/-- The deduplication performed by `eliminar_duplicatas.py`. -/
def drop_duplicates (l : List ApRow) : List ApRow := dropDupAux [] l

/-! ## Helper lemmas -/

/-- Whatever comes back from `extract_clean_content` is substantial:
more than 100 characters. -/
theorem extract_clean_content_length {o : HttpOutcome} {c : List Char}
    (h : extract_clean_content o = some c) : 100 < c.length := by
  cases o with
  | err => simp [extract_clean_content] at h
  | ok status text =>
    by_cases hs : 400 ≤ status ∧ status < 600
    · simp [extract_clean_content, hs] at h
    · by_cases hl : 100 < text.length
      · simp [extract_clean_content, hs, hl] at h
        subst h; exact hl
      · simp [extract_clean_content, hs, hl] at h

/-! ## Claim theorems -/

/-- C5: the orchestrator runs exactly inserir_dados_mysql.py, then
eliminar_duplicatas.py, then inserir_dados_mysql.py again, each checked:
a nonzero exit aborts the sequence before any later invocation. -/
theorem C5_orchestrator_sequence (exits : Nat → Nat) :
    script_principal exits =
      if exits 0 ≠ 0 then [("inserir_dados_mysql.py".data)]
      else if exits 1 ≠ 0 then
        [("inserir_dados_mysql.py".data), ("eliminar_duplicatas.py".data)]
      else
        [("inserir_dados_mysql.py".data), ("eliminar_duplicatas.py".data),
         ("inserir_dados_mysql.py".data)] := by
  by_cases h0 : exits 0 = 0 <;> by_cases h1 : exits 1 = 0 <;> by_cases h2 : exits 2 = 0 <;>
    simp [script_principal, runChecked, h0, h1, h2, Bind.bind, Except.bind]

/-- C6 (amended): a call to `extract_clean_content` leaves every field
of the scraper object except `last_request_time` unchanged, sets
`last_request_time` to the fresh clock reading, and its returned value
is that of the pure content extraction. -/
theorem C6_rate_limit_state (st : ScraperState) (now now2 : ℚ) (o : HttpOutcome) :
    (extract_clean_content_st st now now2 o).1.base_url = st.base_url ∧
    (extract_clean_content_st st now now2 o).1.api_key = st.api_key ∧
    (extract_clean_content_st st now now2 o).1.headers = st.headers ∧
    (extract_clean_content_st st now now2 o).1.requests_per_minute = st.requests_per_minute ∧
    (extract_clean_content_st st now now2 o).1.min_delay = st.min_delay ∧
    (extract_clean_content_st st now now2 o).1.last_request_time = now2 ∧
    (extract_clean_content_st st now now2 o).2 = extract_clean_content o :=
  ⟨rfl, rfl, rfl, rfl, rfl, rfl, rfl⟩

/-- C6 (counterexample): a call to `extract_clean_content` does not
leave every field unchanged: on a fresh scraper, after a call at clock
reading 1 the object differs from its initial state, because
`last_request_time` moved from 0 to 1 — rate-limit state does carry
over between requests. -/
theorem C6_state_changes :
    (extract_clean_content_st (initState none) 0 1 .err).1 ≠ initState none := by
  intro h
  have h2 := congrArg ScraperState.last_request_time h
  simp [extract_clean_content_st, respect_rate_limit, initState] at h2

/-- C9: `extract_clean_content` yields only substantial strings: it is
None on a raised request error, None when the status triggers
`raise_for_status` (400-599), None when the body has at most 100
characters, and otherwise exactly the fetched body, whose length
exceeds 100. -/
theorem C9_clean_content_none_or_large (o : HttpOutcome) :
    (∀ t, extract_clean_content o = some t → 100 < t.length) ∧
    (o = .err → extract_clean_content o = none) ∧
    (∀ status text, o = .ok status text → 400 ≤ status → status < 600 →
       extract_clean_content o = none) ∧
    (∀ status text, o = .ok status text → ¬(400 ≤ status ∧ status < 600) →
       text.length ≤ 100 → extract_clean_content o = none) ∧
    (∀ status text, o = .ok status text → ¬(400 ≤ status ∧ status < 600) →
       100 < text.length → extract_clean_content o = some text) := by
  refine ⟨fun t h => extract_clean_content_length h, ?_, ?_, ?_, ?_⟩
  · intro h; subst h; rfl
  · intro status text h h4 h6; subst h
    simp [extract_clean_content, And.intro h4 h6]
  · intro status text h hs hl; subst h
    simp [extract_clean_content, hs, Nat.not_lt.mpr hl]
  · intro status text h hs hl; subst h
    simp [extract_clean_content, hs, hl]

/-- Witness for C9 at concrete outcomes: an error, a 404, and a
successful 200 with a 101-character body. -/
theorem C9_witness :
    100 < (List.replicate 101 'c').length ∧
    extract_clean_content .err = none ∧
    extract_clean_content (.ok 404 (List.replicate 5 'c')) = none ∧
    extract_clean_content (.ok 200 (List.replicate 101 'c')) =
      some (List.replicate 101 'c') :=
  ⟨(C9_clean_content_none_or_large (.ok 200 (List.replicate 101 'c'))).1
      (List.replicate 101 'c') rfl,
   (C9_clean_content_none_or_large .err).2.1 rfl,
   (C9_clean_content_none_or_large (.ok 404 (List.replicate 5 'c'))).2.2.1
      404 (List.replicate 5 'c') rfl (by decide) (by decide),
   (C9_clean_content_none_or_large (.ok 200 (List.replicate 101 'c'))).2.2.2.2
      200 (List.replicate 101 'c') rfl (by decide) (by decide)⟩

/-- C3: when content extraction succeeds, `use_llm` is true and the
language-model step returns the empty list, `process_url` falls back to
the regex parser: its result is exactly `extract_properties_simple` on
the same extracted content, with the metadata wrapper applied. -/
theorem C3_llm_empty_falls_back (o : HttpOutcome) (url site ts content : List Char)
    (h : extract_clean_content o = some content) :
    process_url o [] true url site ts =
      (extract_properties_simple content url).map (tagRecord site ts url) := by
  have hlen := extract_clean_content_length h
  have hne : content.isEmpty = false := by
    cases content
    · simp at hlen
    · simp
  simp [process_url, h, hne]

/-- Witness for C3: a 200 response with a 101-character body. -/
theorem C3_witness :
    extract_clean_content (.ok 200 (List.replicate 101 'a')) =
      some (List.replicate 101 'a') ∧
    process_url (.ok 200 (List.replicate 101 'a')) [] true ("u".data) ("s".data) ("t".data) =
      (extract_properties_simple (List.replicate 101 'a') ("u".data)).map
        (tagRecord ("s".data) ("t".data) ("u".data)) :=
  ⟨rfl, C3_llm_empty_falls_back (.ok 200 (List.replicate 101 'a'))
      ("u".data) ("s".data) ("t".data) (List.replicate 101 'a') rfl⟩

/-- C4: `process_url` follows scrape-then-structure: a failed content
extraction yields the empty list (for any language-model result and any
`use_llm` flag, so neither structuring step runs), and a successful one
yields the structuring step's records, each wrapped with the site,
timestamp and source-URL metadata. -/
theorem C4_pipeline_order (o : HttpOutcome) (llmRes : List PropertyRecord)
    (use_llm : Bool) (url site ts : List Char) :
    (extract_clean_content o = none →
       process_url o llmRes use_llm url site ts = []) ∧
    (∀ content, extract_clean_content o = some content →
       process_url o llmRes use_llm url site ts =
         (if use_llm then
            (if llmRes.isEmpty then extract_properties_simple content url else llmRes)
          else extract_properties_simple content url).map (tagRecord site ts url)) := by
  constructor
  · intro h; simp [process_url, h]
  · intro content h
    have hlen := extract_clean_content_length h
    have hne : content.isEmpty = false := by
      cases content
      · simp at hlen
      · simp
    simp [process_url, h, hne]

/-- Witness for C4: failed extraction gives the empty list; a
successful one with `use_llm` false runs the regex parser and tags. -/
theorem C4_witness :
    process_url .err [] true ("u".data) ("s".data) ("t".data) = [] ∧
    process_url (.ok 200 (List.replicate 101 'b')) [] false ("u".data) ("s".data) ("t".data) =
      (extract_properties_simple (List.replicate 101 'b') ("u".data)).map
        (tagRecord ("s".data) ("t".data) ("u".data)) :=
  ⟨(C4_pipeline_order .err [] true ("u".data) ("s".data) ("t".data)).1 rfl,
   by simpa using
     (C4_pipeline_order (.ok 200 (List.replicate 101 'b')) [] false
        ("u".data) ("s".data) ("t".data)).2 (List.replicate 101 'b') rfl⟩

/-- Unfolding `dbLookup` over a cons cell. -/
theorem dbLookup_cons (a : List Char × DataFrame) (l : Database) (t : List Char) :
    dbLookup (a :: l) t = if a.1 == t then some a.2 else dbLookup l t := by
  by_cases h : (a.1 == t) = true
  · simp [dbLookup, List.find?_cons_of_pos _ h, h]
  · simp [dbLookup, List.find?_cons_of_neg _ (show ¬(a.1 == t) = true from h), h]

/-- `dbLookup` of the empty database. -/
theorem dbLookup_nil (t : List Char) : dbLookup [] t = none := rfl

/-- Looking a name up after `to_sql_replace` on the same name yields the
written dataframe. -/
theorem dbLookup_to_sql_self (db : Database) (t : List Char) (df : DataFrame) :
    dbLookup (to_sql_replace db t df) t = some df := by
  induction db with
  | nil => simp [to_sql_replace, dbLookup_cons]
  | cons a db ih =>
    simp only [to_sql_replace, List.filter_cons] at ih ⊢
    by_cases h : (a.1 == t) = true
    · simpa [h] using ih
    · simpa [h, dbLookup_cons] using ih

/-- Looking any other name up after `to_sql_replace` is unchanged. -/
theorem dbLookup_to_sql_other (db : Database) (t t' : List Char) (df : DataFrame)
    (h : t' ≠ t) : dbLookup (to_sql_replace db t df) t' = dbLookup db t' := by
  have hbeq : (t == t') = false := by
    simp only [beq_eq_false_iff_ne, ne_eq]
    exact fun e => h e.symm
  induction db with
  | nil => simp [to_sql_replace, dbLookup_cons, hbeq]
  | cons a db ih =>
    simp only [to_sql_replace, List.filter_cons] at ih ⊢
    by_cases ha : (a.1 == t) = true
    · have hat' : (a.1 == t') = false := by
        have e : a.1 = t := by simpa using ha
        simp only [e, hbeq]
      simpa [ha, dbLookup_cons, hat'] using ih
    · simp only [ha, Bool.not_false, if_pos rfl]
      by_cases hat' : (a.1 == t') = true
      · simp [dbLookup_cons, hat']
      · simpa [dbLookup_cons, hat'] using ih

/-- C7: the MySQL upload shuttles the `apartamentos` table unchanged:
whatever dataframe the SQLite database holds under `apartamentos` is
written verbatim over the MySQL `apartamentos` table (replacing its
previous contents), every other MySQL table is untouched, and the
SQLite database itself is returned unmodified. -/
theorem C7_mysql_shuttle (sqlite mysql : Database) (df : DataFrame)
    (h : dbLookup sqlite ("apartamentos".data) = some df) :
    ∃ mysql2, inserir_dados_mysql sqlite mysql = some (sqlite, mysql2) ∧
      dbLookup mysql2 ("apartamentos".data) = some df ∧
      ∀ t, t ≠ ("apartamentos".data) → dbLookup mysql2 t = dbLookup mysql t := by
  refine ⟨to_sql_replace mysql ("apartamentos".data) df, ?_, ?_, ?_⟩
  · simp [inserir_dados_mysql, h]
  · exact dbLookup_to_sql_self mysql ("apartamentos".data) df
  · intro t ht; exact dbLookup_to_sql_other mysql ("apartamentos".data) t df ht

/-- Witness for C7 on a one-table SQLite database and a MySQL database
holding an unrelated table. -/
theorem C7_witness :
    ∃ mysql2,
      inserir_dados_mysql
        [(("apartamentos".data), ⟨[("c".data)], [[("v".data)]]⟩)]
        [(("outra".data), ⟨[], []⟩)] =
        some ([(("apartamentos".data), ⟨[("c".data)], [[("v".data)]]⟩)], mysql2) ∧
      dbLookup mysql2 ("apartamentos".data) = some ⟨[("c".data)], [[("v".data)]]⟩ ∧
      ∀ t, t ≠ ("apartamentos".data) →
        dbLookup mysql2 t = dbLookup [(("outra".data), ⟨[], []⟩)] t :=
  C7_mysql_shuttle [(("apartamentos".data), ⟨[("c".data)], [[("v".data)]]⟩)]
    [(("outra".data), ⟨[], []⟩)] ⟨[("c".data)], [[("v".data)]]⟩ (by decide)

/-- Every row surviving the deduplication scan has a key outside the
seen set the scan started with. -/
theorem dropDupAux_not_mem_seen :
    ∀ (l : List ApRow) (seen : List (List (List Char))) (r : ApRow),
      r ∈ dropDupAux seen l → keyOf r ∉ seen := by
  intro l
  induction l with
  | nil => intro seen r h; simp [dropDupAux] at h
  | cons a rest ih =>
    intro seen r h
    simp only [dropDupAux] at h
    by_cases ha : keyOf a ∈ seen
    · rw [if_pos ha] at h; exact ih seen r h
    · rw [if_neg ha] at h
      rcases List.mem_cons.mp h with he | hm
      · subst he; exact ha
      · intro hc
        exact ih (keyOf a :: seen) r hm (List.mem_cons_of_mem _ hc)

/-- The deduplication scan yields pairwise distinct keys. -/
theorem dropDupAux_pairwise :
    ∀ (l : List ApRow) (seen : List (List (List Char))),
      (dropDupAux seen l).Pairwise (fun a b => keyOf a ≠ keyOf b) := by
  intro l
  induction l with
  | nil => intro seen; simp [dropDupAux]
  | cons a rest ih =>
    intro seen
    simp only [dropDupAux]
    by_cases ha : keyOf a ∈ seen
    · rw [if_pos ha]; exact ih seen
    · rw [if_neg ha]
      refine List.Pairwise.cons ?_ (ih _)
      intro b hb he
      exact dropDupAux_not_mem_seen rest _ b hb (he ▸ List.mem_cons_self _ _)

/-- A list with pairwise distinct keys, none already seen, passes the
scan unchanged. -/
theorem dropDupAux_of_pairwise :
    ∀ (l : List ApRow) (seen : List (List (List Char))),
      (∀ r ∈ l, keyOf r ∉ seen) →
      l.Pairwise (fun a b => keyOf a ≠ keyOf b) →
      dropDupAux seen l = l := by
  intro l
  induction l with
  | nil => intro seen _ _; simp [dropDupAux]
  | cons a rest ih =>
    intro seen hseen hp
    have ha : keyOf a ∉ seen := hseen a (List.mem_cons_self _ _)
    simp only [dropDupAux, if_neg ha]
    congr 1
    refine ih _ ?_ (List.pairwise_cons.mp hp).2
    intro r hr hc
    rcases List.mem_cons.mp hc with he | hm
    · exact (List.pairwise_cons.mp hp).1 r hr he.symm
    · exact hseen r (List.mem_cons_of_mem _ hr) hm

/-- C10: deduplication on the six key columns keeping the first
occurrence yields a table in which no two rows agree on all six key
columns, and is therefore idempotent: applied to its own output it
returns it unchanged. -/
theorem C10_dedup_idempotent (l : List ApRow) :
    (drop_duplicates l).Pairwise (fun a b => keyOf a ≠ keyOf b) ∧
    drop_duplicates (drop_duplicates l) = drop_duplicates l := by
  refine ⟨dropDupAux_pairwise l [], ?_⟩
  unfold drop_duplicates
  exact dropDupAux_of_pairwise _ [] (by simp) (dropDupAux_pairwise l [])

/-- The section loop is the filter-map over sections in order,
truncated at 20 records, for any accumulator still below the cap. -/
theorem extractLoop_eq (url : List Char) (l : List (List Char)) :
    ∀ acc : List PropertyRecord, acc.length < 20 →
      extractLoop url l acc =
        (acc ++ (l.filter qualifies).map (recordFromSection url)).take 20 := by
  induction l with
  | nil =>
    intro acc h
    simp [extractLoop, List.take_of_length_le (Nat.le_of_lt h)]
  | cons s rest ih =>
    intro acc h
    by_cases hq : qualifies s = true
    · by_cases h20 : 20 ≤ (acc ++ [recordFromSection url s]).length
      · have hlen : (acc ++ [recordFromSection url s]).length = 20 := by
          simp only [List.length_append, List.length_singleton]
          simp only [List.length_append, List.length_singleton] at h20
          omega
        rw [extractLoop]
        simp only [if_pos hq, if_pos h20]
        rw [List.filter_cons_of_pos hq, List.map_cons]
        have hassoc :
            acc ++ recordFromSection url s ::
              (rest.filter qualifies).map (recordFromSection url) =
            (acc ++ [recordFromSection url s]) ++
              (rest.filter qualifies).map (recordFromSection url) := by
          simp
        rw [hassoc, List.take_append_of_le_length (Nat.le_of_eq hlen.symm),
            List.take_of_length_le (Nat.le_of_eq hlen)]
      · have h20lt : (acc ++ [recordFromSection url s]).length < 20 :=
          Nat.lt_of_not_le h20
        rw [extractLoop]
        simp only [if_pos hq, if_neg h20]
        rw [ih _ h20lt, List.filter_cons_of_pos hq, List.map_cons]
        congr 1
        simp
    · rw [extractLoop]
      simp only [if_neg hq]
      rw [ih acc h, List.filter_cons_of_neg hq]

/-- C1: `extract_properties_simple` is a single in-order pass over the
blank-line sections: its value is the in-order filter (length at least
50 and a price-pattern match) and per-section record map, truncated at
20, and every returned record is the record of exactly one qualifying
section. -/
theorem C1_single_pass (content url : List Char) :
    extract_properties_simple content url =
      (((splitSections content).filter qualifies).map (recordFromSection url)).take 20 ∧
    ∀ r ∈ extract_properties_simple content url,
      ∃ s, s ∈ splitSections content ∧ qualifies s = true ∧
        r = recordFromSection url s := by
  have he : extract_properties_simple content url =
      (((splitSections content).filter qualifies).map (recordFromSection url)).take 20 := by
    simpa [extract_properties_simple] using
      extractLoop_eq url (splitSections content) [] (by simp)
  refine ⟨he, ?_⟩
  intro r hr
  rw [he] at hr
  have hr2 := List.take_subset 20 _ hr
  obtain ⟨s, hs, rfl⟩ := List.mem_map.mp hr2
  exact ⟨s, (List.mem_filter.mp hs).1, (List.mem_filter.mp hs).2, rfl⟩

/-- C8: `extract_properties_simple` returns at most 20 records and is
exactly the in-order qualifying-section records cut off at 20, so the
scan stops once 20 records are collected even if later sections also
contain prices. -/
theorem C8_at_most_twenty (content url : List Char) :
    (extract_properties_simple content url).length ≤ 20 ∧
    extract_properties_simple content url =
      (((splitSections content).filter qualifies).map (recordFromSection url)).take 20 := by
  have he : extract_properties_simple content url =
      (((splitSections content).filter qualifies).map (recordFromSection url)).take 20 := by
    simpa [extract_properties_simple] using
      extractLoop_eq url (splitSections content) [] (by simp)
  exact ⟨by rw [he]; exact List.length_take_le 20 _, he⟩

/-- Witness for C1: on a two-section content whose first section is long
and priced, the returned record comes from that qualifying section. -/
theorem C1_witness :
    ∃ s, s ∈ splitSections
        (("Apartamento em venda no centro da cidade por apenas R$ 100.000 hoje\n\nxx").data) ∧
      qualifies s = true ∧
      recordFromSection ("u".data)
          (("Apartamento em venda no centro da cidade por apenas R$ 100.000 hoje").data) =
        recordFromSection ("u".data) s :=
  (C1_single_pass
      (("Apartamento em venda no centro da cidade por apenas R$ 100.000 hoje\n\nxx").data)
      ("u".data)).2
    (recordFromSection ("u".data)
      (("Apartamento em venda no centro da cidade por apenas R$ 100.000 hoje").data))
    (by decide)

/-- A Python single-character split never returns the empty list. -/
theorem splitOnChar_ne_nil (c : Char) (l : List Char) : splitOnChar c l ≠ [] := by
  induction l with
  | nil => simp [splitOnChar]
  | cons x xs _ =>
    simp only [splitOnChar]
    split
    · simp
    · split
      · simp
      · simp

/-- Splitting on a character the string contains gives at least two parts. -/
theorem splitOnChar_length_of_contains {c : Char} {l : List Char}
    (h : l.contains c = true) : 1 < (splitOnChar c l).length := by
  induction l with
  | nil => simp [List.contains] at h
  | cons x xs ih =>
    simp only [splitOnChar]
    by_cases hx : x = c
    · rw [if_pos hx]
      cases hr : splitOnChar c xs with
      | nil => exact absurd hr (splitOnChar_ne_nil c xs)
      | cons p ps => simp
    · rw [if_neg hx]
      simp only [List.contains_cons] at h
      rcases (Bool.or_eq_true _ _).mp h with hxc | hxs
      · have hxc2 : c = x := by simpa using hxc
        exact absurd hxc2.symm hx
      · cases hr : splitOnChar c xs with
        | nil => exact absurd hr (splitOnChar_ne_nil c xs)
        | cons p ps =>
          have := ih hxs
          rw [hr] at this
          simpa using this

/-- When the address pattern matches, the extractor returns a record. -/
theorem eafs_isSome_of_match {s : List Char} {i e : Nat}
    (h : addrFirstMatch s = some (i, e)) :
    ∃ v, extract_address_from_section s = some v := by
  simp only [extract_address_from_section, h]
  split
  · split
    · split
      · exact ⟨_, rfl⟩
      · exact ⟨_, rfl⟩
    · exact ⟨_, rfl⟩
  · exact ⟨_, rfl⟩

/-- C2 (amended): `extract_address_from_section` returns None exactly
when the street-address pattern has no match; otherwise it returns a
record built from the first match: with no comma in the matched
address, the endereco field is the stripped match; with a comma, the
stripped parts are rejoined (but the last) as endereco and the last
part is the bairro — except that when that last part contains a hyphen,
the part before its first hyphen (stripped) becomes the bairro field
and the part after its last hyphen (stripped) becomes the cidade field. -/
theorem C2_address_extraction (s : List Char) :
    (extract_address_from_section s = none ↔ addrFirstMatch s = none) ∧
    (∀ i e, addrFirstMatch s = some (i, e) →
      (let full := pyStrip ((s.drop i).take (e - i))
       let parts := (splitOnChar ',' full).map pyStrip
       let b := parts.getLastD []
       (parts.length ≤ 1 →
          extract_address_from_section s = some ⟨full, none, none⟩) ∧
       (1 < parts.length → b.contains '-' = false →
          extract_address_from_section s =
            some ⟨List.intercalate [','] parts.dropLast, some b, none⟩) ∧
       (1 < parts.length → b.contains '-' = true →
          extract_address_from_section s =
            some ⟨List.intercalate [','] parts.dropLast,
                  some (pyStrip ((splitOnChar '-' b).headD [])),
                  some (pyStrip ((splitOnChar '-' b).getLastD []))⟩))) := by
  constructor
  · constructor
    · intro hn
      cases hm : addrFirstMatch s with
      | none => rfl
      | some p =>
        obtain ⟨i, e⟩ := p
        obtain ⟨v, hv⟩ := eafs_isSome_of_match hm
        rw [hv] at hn
        exact absurd hn (by simp)
    · intro hm
      simp [extract_address_from_section, hm]
  · intro i e h
    refine ⟨?_, ?_, ?_⟩
    · intro h1
      simp only [extract_address_from_section, h]
      rw [if_neg (by omega)]
    · intro h1 hc
      simp only [extract_address_from_section, h]
      rw [if_pos h1, if_neg (show ¬_ = true by rw [hc]; exact Bool.false_ne_true)]
    · intro h1 hc
      simp only [extract_address_from_section, h]
      rw [if_pos h1, if_pos hc, if_pos (splitOnChar_length_of_contains hc)]

/-- Witness for C2 at a concrete section with comma and hyphen. -/
theorem C2_witness :
    addrFirstMatch (("Rua X, Centro - Floripa").data) = some (0, 23) ∧
    extract_address_from_section (("Rua X, Centro - Floripa").data) =
      some ⟨("Rua X".data), some ("Centro".data), some ("Floripa".data)⟩ := by
  refine ⟨by decide, ?_⟩
  have h := (C2_address_extraction (("Rua X, Centro - Floripa").data)).2 0 23 (by decide)
  have h3 := h.2.2 (by decide) (by decide)
  exact h3.trans (by decide)

/-- C2 (counterexample): on the section Rua X, Centro - Floripa the
matched address is the whole section, its last comma-separated part
stripped is Centro - Floripa, yet the returned bairro field is Centro:
the claim's description of the bairro field fails when that part
contains a hyphen. -/
theorem C2_counterexample :
    extract_address_from_section (("Rua X, Centro - Floripa").data) =
      some ⟨("Rua X".data), some ("Centro".data), some ("Floripa".data)⟩ ∧
    addrFirstMatch (("Rua X, Centro - Floripa").data) = some (0, 23) ∧
    pyStrip ((splitOnChar ','
        (pyStrip (((("Rua X, Centro - Floripa").data).drop 0).take (23 - 0)))).getLastD []) =
      ("Centro - Floripa").data ∧
    some (("Centro").data) ≠ some (("Centro - Floripa").data) :=
  ⟨by decide, by decide, by decide, by decide⟩
